import Mathlib

/-!
Shallow embedding of the `microgradrust` reverse-mode automatic-differentiation
engine (`src/lib.rs`, `src/ops.rs`, `src/mlp.rs`).

The Rust code stores graph nodes as `Rc<RefCell<ValueInt>>` handles.  We embed
the heap as an arena: a graph is a list of node records, a `Value` handle is the
index of its record, and every operation that allocates a node appends it to the
list (so an operand index is always strictly smaller than the index of the node
using it — the "finite DAG by construction" property the source relies on).
Recursive procedures (`set_grad`, `get_ops`) recurse along operand indices; the
`if _ : p < i` guards make that recursion well-founded and are never taken on
the graphs the public constructors build, where operands are strictly earlier.

`f64` values are embedded as real numbers; the transcendental primitives
(`f64::exp`, `f64::tanh`, `f64::powf`) are collected in a `ScalarOps` record so
the state-transition functions stay executable, and are instantiated with
`Real.exp`, `Real.tanh`, `Real.rpow` in the theorems.
-/

namespace Micrograd

/-- The operator tag of `lib.rs` (`enum Operator`). -/
inductive Operator where
  | add
  | sub
  | mul
  | none
  | pow
  | tanh
  | exp
deriving DecidableEq

/-- The transcendental `f64` primitives used by the engine. -/
structure ScalarOps where
  exp : ℝ → ℝ
  tanh : ℝ → ℝ
  rpow : ℝ → ℝ → ℝ

/-- One graph node record (`struct ValueInt` in `lib.rs`): forward value,
producing operator, operand references, accumulated gradient. -/
structure ValueInt where
  data : ℝ
  operator : Operator
  prev : List Nat
  grad : ℝ

instance : Inhabited ValueInt := ⟨⟨0, Operator.none, [], 0⟩⟩

/-- The arena of allocated nodes; a `Value` handle is an index into it. -/
abbrev Graph := List ValueInt

/-- Dereference a node handle. -/
def nodeAt (g : Graph) (i : Nat) : ValueInt := g.getD i default

/-- `value.data()` accessor. -/
def dataAt (g : Graph) (i : Nat) : ℝ := (nodeAt g i).data

/-- The `grad` field of a node. -/
def gradAt (g : Graph) (i : Nat) : ℝ := (nodeAt g i).grad

/-- Overwrite the record of node `i`. -/
def setNode (g : Graph) (i : Nat) (v : ValueInt) : Graph := g.set i v

/-- `grad += gr` on node `i`. -/
def addGrad (g : Graph) (i : Nat) (gr : ℝ) : Graph :=
  setNode g i { nodeAt g i with grad := (nodeAt g i).grad + gr }

/-- `grad = gr` on node `i`. -/
def assignGrad (g : Graph) (i : Nat) (gr : ℝ) : Graph :=
  setNode g i { nodeAt g i with grad := gr }

namespace Value

/-- `Value::new(data)`: allocate a leaf. Returns the new graph and handle. -/
def new (g : Graph) (x : ℝ) : Graph × Nat :=
  (g ++ [⟨x, Operator.none, [], 0⟩], g.length)

/-- `Value::zero_grad`. -/
def zero_grad (g : Graph) (i : Nat) : Graph := assignGrad g i 0

/-- `Value::set_data`. -/
def set_data (g : Graph) (i : Nat) (x : ℝ) : Graph :=
  setNode g i { nodeAt g i with data := x }

/-- `impl Add for &Value` (`ops.rs`). -/
def add (g : Graph) (i j : Nat) : Graph × Nat :=
  (g ++ [⟨dataAt g i + dataAt g j, Operator.add, [i, j], 0⟩], g.length)

/-- `impl Mul for &Value` (`ops.rs`). -/
def mul (g : Graph) (i j : Nat) : Graph × Nat :=
  (g ++ [⟨dataAt g i * dataAt g j, Operator.mul, [i, j], 0⟩], g.length)

/-- `impl Neg for &Value` (`ops.rs`): data `-a`, recorded as `Mul` with a fresh
constant `-1` leaf as second operand. -/
def neg (g : Graph) (i : Nat) : Graph × Nat :=
  let d := dataAt g i
  let m := new g (-1)
  (m.1 ++ [⟨-d, Operator.mul, [i, m.2], 0⟩], m.1.length)

/-- `impl Sub for &Value` (`ops.rs`): `self + &other.neg()`. -/
def sub (g : Graph) (i j : Nat) : Graph × Nat :=
  let n := neg g j
  add n.1 i n.2

/-- `Value::pow(n)`: data `self.data.powf(n)`, operands `[self, Value::new(n)]`. -/
def pow (S : ScalarOps) (g : Graph) (i : Nat) (k : ℝ) : Graph × Nat :=
  let d := S.rpow (dataAt g i) k
  let e := new g k
  (e.1 ++ [⟨d, Operator.pow, [i, e.2], 0⟩], e.1.length)

/-- `impl Div for &Value` (`ops.rs`): `self * &other.pow(-1.0)`. -/
def div (S : ScalarOps) (g : Graph) (i j : Nat) : Graph × Nat :=
  let p := pow S g j (-1)
  mul p.1 i p.2

/-- `Value::tanh`. -/
def tanh (S : ScalarOps) (g : Graph) (i : Nat) : Graph × Nat :=
  (g ++ [⟨S.tanh (dataAt g i), Operator.tanh, [i], 0⟩], g.length)

/-- `Value::exp`. -/
def exp (S : ScalarOps) (g : Graph) (i : Nat) : Graph × Nat :=
  (g ++ [⟨S.exp (dataAt g i), Operator.exp, [i], 0⟩], g.length)

/-- `Value::sigmoid`: `&Value::new(1.0) / &(&Value::new(1.0) + &(-self).exp())`. -/
def sigmoid (S : ScalarOps) (g : Graph) (i : Nat) : Graph × Nat :=
  let one1 := new g 1
  let one2 := new one1.1 1
  let n := neg one2.1 i
  let e := exp S n.1 n.2
  let s := add e.1 one2.2 e.2
  div S s.1 one1.2 s.2

/-- `Value::set_grad(grad)`: `self.grad += grad`, then push a share of `grad`
into each operand according to the operator's local-derivative formula,
recursing immediately (the recursive chain-rule push of the source).  The
source reads the operands' `data` before recursing; data is never changed by
gradient propagation, so reading it from `g1` matches the source order. -/
def set_grad (S : ScalarOps) (g : Graph) (i : Nat) (gr : ℝ) : Graph :=
  let g1 := addGrad g i gr
  let v := nodeAt g i
  match v.operator with
  | Operator.exp =>
    let p0 := v.prev.getD 0 0
    if _ : p0 < i then
      set_grad S g1 p0 (gr * S.exp (dataAt g1 p0))
    else g1
  | Operator.add =>
    let p0 := v.prev.getD 0 0
    let p1 := v.prev.getD 1 0
    if _ : p0 < i ∧ p1 < i then
      set_grad S (set_grad S g1 p0 gr) p1 gr
    else g1
  | Operator.sub =>
    let p0 := v.prev.getD 0 0
    let p1 := v.prev.getD 1 0
    if _ : p0 < i ∧ p1 < i then
      set_grad S (set_grad S g1 p0 gr) p1 (-gr)
    else g1
  | Operator.mul =>
    let p0 := v.prev.getD 0 0
    let p1 := v.prev.getD 1 0
    let d1 := dataAt g1 p1
    let d0 := dataAt g1 p0
    if _ : p0 < i ∧ p1 < i then
      set_grad S (set_grad S g1 p0 (gr * d1)) p1 (gr * d0)
    else g1
  | Operator.pow =>
    let p0 := v.prev.getD 0 0
    let p1 := v.prev.getD 1 0
    let d1 := dataAt g1 p1
    let d0 := dataAt g1 p0
    if _ : p0 < i then
      set_grad S g1 p0 (gr * d1 * S.rpow d0 (d1 - 1))
    else g1
  | Operator.tanh =>
    let p0 := v.prev.getD 0 0
    if _ : p0 < i then
      set_grad S g1 p0 (gr * (1 - S.tanh (dataAt g1 p0) ^ 2))
    else g1
  | Operator.none => g1
termination_by i
decreasing_by
  all_goals first
    | assumption
    | exact (by assumption : _ ∧ _).1
    | exact (by assumption : _ ∧ _).2

/-- `Value::backward`: `self.grad = 1.0; self.set_grad(1.0)`. -/
def backward (S : ScalarOps) (g : Graph) (i : Nat) : Graph :=
  set_grad S (assignGrad g i 1) i 1

/-- The operator text `get_ops` pushes between the two operand strings. -/
def opText : Operator → String
  | Operator.add => "+"
  | Operator.sub => "-"
  | Operator.mul => "*"
  | Operator.pow => "^"
  | Operator.tanh => "tanh("
  | Operator.exp => "exp("
  | Operator.none => ""

/-- The extra closing parenthesis `get_ops` pushes for `Tanh`/`Exp`. -/
def closeText : Operator → String
  | Operator.tanh => ")"
  | Operator.exp => ")"
  | _ => ""

/-- `Value::get_ops`, with the `f64` rendering of leaf data abstracted as
`render` (the spec places no contract on numeral formatting).  A panicking
vector access (`prev[0]` / `prev[1]` out of bounds) is embedded as
`Option.none`; the source indexes `prev[1]` unconditionally for every non-leaf
operator. -/
def get_ops (render : ℝ → String) (g : Graph) (i : Nat) : Option String :=
  let v := nodeAt g i
  if v.operator = Operator.none then
    some (render v.data)
  else
    match v.prev.get? 0 with
    | Option.none => Option.none
    | some p0 =>
      if _ : p0 < i then
        match get_ops render g p0 with
        | Option.none => Option.none
        | some s0 =>
          match v.prev.get? 1 with
          | Option.none => Option.none
          | some p1 =>
            if _ : p1 < i then
              match get_ops render g p1 with
              | Option.none => Option.none
              | some s1 =>
                some ("(" ++ s0 ++ opText v.operator ++ s1
                  ++ closeText v.operator ++ ")")
            else Option.none
      else Option.none
termination_by i
decreasing_by
  all_goals assumption

end Value

/-- `struct Neuron` (`mlp.rs`): weight handles and a bias handle. -/
structure Neuron where
  weights : List Nat
  bias : Nat

/-- The body of the `for` loop in `Neuron::forward`:
`sum = &sum + &(&self.weights[i] * &inputs[i])`. -/
def forwardLoop (g : Graph) (sum : Nat) : List (Nat × Nat) → Graph × Nat
  | [] => (g, sum)
  | p :: rest =>
    let m := Value.mul g p.1 p.2
    let s := Value.add m.1 sum m.2
    forwardLoop s.1 s.2 rest

/-- `Neuron::forward`: `assert_eq!(inputs.len(), self.weights.len())` — the
assertion failure is embedded as `Option.none` — then the weighted-sum fold. -/
def Neuron.forward (g : Graph) (n : Neuron) (inputs : List Nat) :
    Option (Graph × Nat) :=
  if inputs.length = n.weights.length then
    some (forwardLoop g n.bias (n.weights.zip inputs))
  else Option.none

/-- The real-number instantiation of the `f64` primitives. -/
noncomputable def RS : ScalarOps :=
  ⟨Real.exp, Real.tanh, fun x y => Real.rpow x y⟩

/-- Two graphs with the same nodes up to their gradient accumulators: equal
length and, at every index, equal `data`, `operator` and `prev`. -/
def StructEq (g g' : Graph) : Prop :=
  g.length = g'.length ∧
    ∀ j, (nodeAt g j).data = (nodeAt g' j).data ∧
      (nodeAt g j).operator = (nodeAt g' j).operator ∧
      (nodeAt g j).prev = (nodeAt g' j).prev

/-- Reachability by following operand references, root included. -/
inductive Reaches (g : Graph) : Nat → Nat → Prop where
  | refl (i : Nat) : Reaches g i i
  | step (i j k : Nat) : j ∈ (nodeAt g i).prev → Reaches g j k → Reaches g i k

/- ------------------------------------------------------------------ -/
/- Basic arena lemmas.                                                -/
/- ------------------------------------------------------------------ -/

theorem nodeAt_append_lt (g l : Graph) (i : Nat) (h : i < g.length) :
    nodeAt (g ++ l) i = nodeAt g i := by
  simp [nodeAt, List.getD, List.getElem?_append_left h]

theorem nodeAt_append_self (g : Graph) (v : ValueInt) (l : Graph) :
    nodeAt (g ++ v :: l) g.length = v := by
  simp [nodeAt, List.getD, List.getElem?_append_right (Nat.le_refl g.length)]

theorem nodeAt_of_length_le (g : Graph) (i : Nat) (h : g.length ≤ i) :
    nodeAt g i = default := by
  simp [nodeAt, List.getD, List.getElem?_eq_none h]

theorem nodeAt_set_self (g : Graph) (i : Nat) (v : ValueInt) (h : i < g.length) :
    nodeAt (g.set i v) i = v := by
  simp [nodeAt, List.getD, List.getElem?_set_eq_of_lt _ h]

theorem nodeAt_set_ne (g : Graph) (i j : Nat) (v : ValueInt) (h : j ≠ i) :
    nodeAt (g.set i v) j = nodeAt g j := by
  simp [nodeAt, List.getD, List.getElem?_set_ne (Ne.symm h)]

theorem length_setNode (g : Graph) (i : Nat) (v : ValueInt) :
    (setNode g i v).length = g.length := by
  simp [setNode]

theorem setNode_of_length_le (g : Graph) (i : Nat) (v : ValueInt)
    (h : g.length ≤ i) : setNode g i v = g :=
  List.set_eq_of_length_le h

/- ------------------------------------------------------------------ -/
/- Gradient-cell updates.                                             -/
/- ------------------------------------------------------------------ -/

theorem nodeAt_addGrad_ne (g : Graph) (i j : Nat) (gr : ℝ) (h : j ≠ i) :
    nodeAt (addGrad g i gr) j = nodeAt g j :=
  nodeAt_set_ne _ _ _ _ h

theorem nodeAt_addGrad_self (g : Graph) (i : Nat) (gr : ℝ) (h : i < g.length) :
    nodeAt (addGrad g i gr) i =
      { nodeAt g i with grad := (nodeAt g i).grad + gr } :=
  nodeAt_set_self _ _ _ h

theorem length_addGrad (g : Graph) (i : Nat) (gr : ℝ) :
    (addGrad g i gr).length = g.length :=
  length_setNode _ _ _

theorem gradAt_addGrad (g : Graph) (i j : Nat) (gr : ℝ) :
    gradAt (addGrad g i gr) j =
      gradAt g j + if j = i ∧ i < g.length then gr else 0 := by
  by_cases hj : j = i
  · subst hj
    by_cases hi : j < g.length
    · simp [gradAt, nodeAt_addGrad_self g j gr hi, hi]
    · simp [gradAt, addGrad, setNode_of_length_le g j _ (Nat.le_of_not_lt hi), hi]
  · simp [gradAt, nodeAt_addGrad_ne g i j gr hj, hj]

theorem nodeAt_assignGrad_ne (g : Graph) (i j : Nat) (gr : ℝ) (h : j ≠ i) :
    nodeAt (assignGrad g i gr) j = nodeAt g j :=
  nodeAt_set_ne _ _ _ _ h

theorem nodeAt_assignGrad_self (g : Graph) (i : Nat) (gr : ℝ)
    (h : i < g.length) :
    nodeAt (assignGrad g i gr) i = { nodeAt g i with grad := gr } :=
  nodeAt_set_self _ _ _ h

theorem length_assignGrad (g : Graph) (i : Nat) (gr : ℝ) :
    (assignGrad g i gr).length = g.length :=
  length_setNode _ _ _

theorem dataAt_addGrad (g : Graph) (i j : Nat) (gr : ℝ) :
    dataAt (addGrad g i gr) j = dataAt g j := by
  by_cases hj : j = i
  · subst hj
    by_cases hi : j < g.length
    · simp [dataAt, nodeAt_addGrad_self g j gr hi]
    · simp [dataAt, addGrad, setNode_of_length_le g j _ (Nat.le_of_not_lt hi)]
  · simp [dataAt, nodeAt_addGrad_ne g i j gr hj]

/- ------------------------------------------------------------------ -/
/- StructEq: the frame of gradient propagation.                       -/
/- ------------------------------------------------------------------ -/

theorem StructEq.refl (g : Graph) : StructEq g g :=
  ⟨rfl, fun _ => ⟨rfl, rfl, rfl⟩⟩

theorem StructEq.symm (g g' : Graph) (h : StructEq g g') : StructEq g' g :=
  ⟨h.1.symm, fun j => ⟨(h.2 j).1.symm, (h.2 j).2.1.symm, (h.2 j).2.2.symm⟩⟩

theorem StructEq.trans (g₁ g₂ g₃ : Graph) (h : StructEq g₁ g₂)
    (h' : StructEq g₂ g₃) : StructEq g₁ g₃ :=
  ⟨h.1.trans h'.1, fun j =>
    ⟨(h.2 j).1.trans (h'.2 j).1, (h.2 j).2.1.trans (h'.2 j).2.1,
      (h.2 j).2.2.trans (h'.2 j).2.2⟩⟩

theorem structEq_setGradField (g : Graph) (i : Nat) (gr : ℝ) :
    StructEq (setNode g i { nodeAt g i with grad := gr }) g := by
  refine ⟨length_setNode _ _ _, fun j => ?_⟩
  by_cases hj : j = i
  · subst hj
    by_cases hi : j < g.length
    · simp [setNode, nodeAt_set_self g j _ hi]
    · simp [setNode_of_length_le g j _ (Nat.le_of_not_lt hi)]
  · simp [setNode, nodeAt_set_ne g i j _ hj]

theorem structEq_addGrad (g : Graph) (i : Nat) (gr : ℝ) :
    StructEq (addGrad g i gr) g :=
  structEq_setGradField g i _

theorem structEq_assignGrad (g : Graph) (i : Nat) (gr : ℝ) :
    StructEq (assignGrad g i gr) g :=
  structEq_setGradField g i _

/-- Frame lemma for `set_grad`: gradient propagation changes only `grad`
accumulators — every node's `data`, `operator` and `prev`, and the number of
nodes, are untouched. -/
theorem set_grad_structEq (S : ScalarOps) :
    ∀ (i : Nat) (g : Graph) (gr : ℝ), StructEq (Value.set_grad S g i gr) g := by
  intro i
  induction i using Nat.strong_induction_on with
  | _ i ih =>
    intro g gr
    rw [Value.set_grad]
    have hbase : StructEq (addGrad g i gr) g := structEq_addGrad g i gr
    cases hop : (nodeAt g i).operator <;> simp only [hop]
    case none => exact hbase
    case add =>
      split
      next h =>
        exact StructEq.trans _ _ _
          (ih _ h.2 _ _)
          (StructEq.trans _ _ _ (ih _ h.1 _ _) hbase)
      next => exact hbase
    case sub =>
      split
      next h =>
        exact StructEq.trans _ _ _
          (ih _ h.2 _ _)
          (StructEq.trans _ _ _ (ih _ h.1 _ _) hbase)
      next => exact hbase
    case mul =>
      split
      next h =>
        exact StructEq.trans _ _ _
          (ih _ h.2 _ _)
          (StructEq.trans _ _ _ (ih _ h.1 _ _) hbase)
      next => exact hbase
    case pow =>
      split
      next h => exact StructEq.trans _ _ _ (ih _ h _ _) hbase
      next => exact hbase
    case tanh =>
      split
      next h => exact StructEq.trans _ _ _ (ih _ h _ _) hbase
      next => exact hbase
    case exp =>
      split
      next h => exact StructEq.trans _ _ _ (ih _ h _ _) hbase
      next => exact hbase

theorem set_grad_length (S : ScalarOps) (g : Graph) (i : Nat) (gr : ℝ) :
    (Value.set_grad S g i gr).length = g.length :=
  (set_grad_structEq S i g gr).1

theorem dataAt_set_grad (S : ScalarOps) (g : Graph) (i : Nat) (gr : ℝ)
    (j : Nat) : dataAt (Value.set_grad S g i gr) j = dataAt g j :=
  ((set_grad_structEq S i g gr).2 j).1

theorem gradAt_addGrad_ne (g : Graph) (i j : Nat) (gr : ℝ) (h : j ≠ i) :
    gradAt (addGrad g i gr) j = gradAt g j := by
  simp [gradAt, nodeAt_addGrad_ne g i j gr h]

/-- The recursive push at node `i` only descends along strictly smaller
indices, so the gradient of any node above `i` is untouched. -/
theorem gradAt_set_grad_of_gt (S : ScalarOps) :
    ∀ (i : Nat) (g : Graph) (gr : ℝ) (j : Nat), i < j →
      gradAt (Value.set_grad S g i gr) j = gradAt g j := by
  intro i
  induction i using Nat.strong_induction_on with
  | _ i ih =>
    intro g gr j hij
    have hne : j ≠ i := Nat.ne_of_gt hij
    rw [Value.set_grad]
    have hbase : gradAt (addGrad g i gr) j = gradAt g j :=
      gradAt_addGrad_ne g i j gr hne
    cases hop : (nodeAt g i).operator <;> simp only [hop]
    case none => exact hbase
    case add =>
      split
      next h =>
        rw [ih _ h.2 _ _ _ (Nat.lt_trans h.2 hij),
          ih _ h.1 _ _ _ (Nat.lt_trans h.1 hij), hbase]
      next => exact hbase
    case sub =>
      split
      next h =>
        rw [ih _ h.2 _ _ _ (Nat.lt_trans h.2 hij),
          ih _ h.1 _ _ _ (Nat.lt_trans h.1 hij), hbase]
      next => exact hbase
    case mul =>
      split
      next h =>
        rw [ih _ h.2 _ _ _ (Nat.lt_trans h.2 hij),
          ih _ h.1 _ _ _ (Nat.lt_trans h.1 hij), hbase]
      next => exact hbase
    case pow =>
      split
      next h => rw [ih _ h _ _ _ (Nat.lt_trans h hij), hbase]
      next => exact hbase
    case tanh =>
      split
      next h => rw [ih _ h _ _ _ (Nat.lt_trans h hij), hbase]
      next => exact hbase
    case exp =>
      split
      next h => rw [ih _ h _ _ _ (Nat.lt_trans h hij), hbase]
      next => exact hbase

/-- At the entry node itself the push adds exactly the incoming gradient:
the recursive descents below cannot reach back up to `i`. -/
theorem gradAt_set_grad_self (S : ScalarOps) (g : Graph) (i : Nat) (gr : ℝ)
    (hi : i < g.length) :
    gradAt (Value.set_grad S g i gr) i = gradAt g i + gr := by
  rw [Value.set_grad]
  have hbase : gradAt (addGrad g i gr) i = gradAt g i + gr := by
    rw [gradAt_addGrad]; simp [hi]
  cases hop : (nodeAt g i).operator <;> simp only [hop]
  case none => exact hbase
  case add =>
    split
    next h =>
      rw [gradAt_set_grad_of_gt S _ _ _ _ h.2,
        gradAt_set_grad_of_gt S _ _ _ _ h.1, hbase]
    next => exact hbase
  case sub =>
    split
    next h =>
      rw [gradAt_set_grad_of_gt S _ _ _ _ h.2,
        gradAt_set_grad_of_gt S _ _ _ _ h.1, hbase]
    next => exact hbase
  case mul =>
    split
    next h =>
      rw [gradAt_set_grad_of_gt S _ _ _ _ h.2,
        gradAt_set_grad_of_gt S _ _ _ _ h.1, hbase]
    next => exact hbase
  case pow =>
    split
    next h => rw [gradAt_set_grad_of_gt S _ _ _ _ h, hbase]
    next => exact hbase
  case tanh =>
    split
    next h => rw [gradAt_set_grad_of_gt S _ _ _ _ h, hbase]
    next => exact hbase
  case exp =>
    split
    next h => rw [gradAt_set_grad_of_gt S _ _ _ _ h, hbase]
    next => exact hbase

/-- Because differentiation is additive in the accumulators, the increment a
`set_grad` call makes to each node's gradient depends only on the structure
(`data`, `operator`, `prev`) of the graph, never on the gradients already
stored: two structurally equal graphs receive identical increments. -/
theorem set_grad_delta (S : ScalarOps) :
    ∀ (i : Nat) (g g' : Graph) (gr : ℝ), StructEq g g' → ∀ j,
      gradAt (Value.set_grad S g i gr) j - gradAt g j =
        gradAt (Value.set_grad S g' i gr) j - gradAt g' j := by
  intro i
  induction i using Nat.strong_induction_on with
  | _ i ih =>
    intro g g' gr hst j
    have hdata : ∀ p, dataAt g' p = dataAt g p := fun p => ((hst.2 p).1).symm
    have hop : (nodeAt g' i).operator = (nodeAt g i).operator :=
      ((hst.2 i).2.1).symm
    have hprev : (nodeAt g' i).prev = (nodeAt g i).prev := ((hst.2 i).2.2).symm
    have hA : StructEq (addGrad g i gr) (addGrad g' i gr) :=
      StructEq.trans _ _ _ (structEq_addGrad g i gr)
        (StructEq.trans _ _ _ hst
          (StructEq.symm _ _ (structEq_addGrad g' i gr)))
    have hd0 : gradAt (addGrad g i gr) j - gradAt g j =
        gradAt (addGrad g' i gr) j - gradAt g' j := by
      rw [gradAt_addGrad, gradAt_addGrad, hst.1]; ring
    rw [Value.set_grad, Value.set_grad]
    simp only [hop, hprev, dataAt_addGrad, hdata]
    cases hop2 : (nodeAt g i).operator <;> simp only [hop2]
    case none => exact hd0
    case add =>
      by_cases hg : (nodeAt g i).prev.getD 0 0 < i ∧
          (nodeAt g i).prev.getD 1 0 < i
      · rw [dif_pos hg, dif_pos hg]
        have hA1 : StructEq
            (Value.set_grad S (addGrad g i gr) ((nodeAt g i).prev.getD 0 0) gr)
            (Value.set_grad S (addGrad g' i gr) ((nodeAt g i).prev.getD 0 0)
              gr) :=
          StructEq.trans _ _ _ (set_grad_structEq S _ _ _)
            (StructEq.trans _ _ _ hA
              (StructEq.symm _ _ (set_grad_structEq S _ _ _)))
        have h1 := ih _ hg.1 (addGrad g i gr) (addGrad g' i gr) gr hA j
        have h2 := ih _ hg.2 _ _ gr hA1 j
        linarith [h1, h2, hd0]
      · rw [dif_neg hg, dif_neg hg]; exact hd0
    case sub =>
      by_cases hg : (nodeAt g i).prev.getD 0 0 < i ∧
          (nodeAt g i).prev.getD 1 0 < i
      · rw [dif_pos hg, dif_pos hg]
        have hA1 : StructEq
            (Value.set_grad S (addGrad g i gr) ((nodeAt g i).prev.getD 0 0) gr)
            (Value.set_grad S (addGrad g' i gr) ((nodeAt g i).prev.getD 0 0)
              gr) :=
          StructEq.trans _ _ _ (set_grad_structEq S _ _ _)
            (StructEq.trans _ _ _ hA
              (StructEq.symm _ _ (set_grad_structEq S _ _ _)))
        have h1 := ih _ hg.1 (addGrad g i gr) (addGrad g' i gr) gr hA j
        have h2 := ih _ hg.2 _ _ (-gr) hA1 j
        linarith [h1, h2, hd0]
      · rw [dif_neg hg, dif_neg hg]; exact hd0
    case mul =>
      by_cases hg : (nodeAt g i).prev.getD 0 0 < i ∧
          (nodeAt g i).prev.getD 1 0 < i
      · rw [dif_pos hg, dif_pos hg]
        have hA1 : StructEq
            (Value.set_grad S (addGrad g i gr) ((nodeAt g i).prev.getD 0 0)
              (gr * dataAt g ((nodeAt g i).prev.getD 1 0)))
            (Value.set_grad S (addGrad g' i gr) ((nodeAt g i).prev.getD 0 0)
              (gr * dataAt g ((nodeAt g i).prev.getD 1 0))) :=
          StructEq.trans _ _ _ (set_grad_structEq S _ _ _)
            (StructEq.trans _ _ _ hA
              (StructEq.symm _ _ (set_grad_structEq S _ _ _)))
        have h1 := ih _ hg.1 (addGrad g i gr) (addGrad g' i gr)
          (gr * dataAt g ((nodeAt g i).prev.getD 1 0)) hA j
        have h2 := ih _ hg.2 _ _
          (gr * dataAt g ((nodeAt g i).prev.getD 0 0)) hA1 j
        linarith [h1, h2, hd0]
      · rw [dif_neg hg, dif_neg hg]; exact hd0
    case pow =>
      by_cases hg : (nodeAt g i).prev.getD 0 0 < i
      · rw [dif_pos hg, dif_pos hg]
        have h1 := ih _ hg (addGrad g i gr) (addGrad g' i gr)
          (gr * dataAt g ((nodeAt g i).prev.getD 1 0) *
            S.rpow (dataAt g ((nodeAt g i).prev.getD 0 0))
              (dataAt g ((nodeAt g i).prev.getD 1 0) - 1)) hA j
        linarith [h1, hd0]
      · rw [dif_neg hg, dif_neg hg]; exact hd0
    case tanh =>
      by_cases hg : (nodeAt g i).prev.getD 0 0 < i
      · rw [dif_pos hg, dif_pos hg]
        have h1 := ih _ hg (addGrad g i gr) (addGrad g' i gr)
          (gr * (1 - S.tanh (dataAt g ((nodeAt g i).prev.getD 0 0)) ^ 2)) hA j
        linarith [h1, hd0]
      · rw [dif_neg hg, dif_neg hg]; exact hd0
    case exp =>
      by_cases hg : (nodeAt g i).prev.getD 0 0 < i
      · rw [dif_pos hg, dif_pos hg]
        have h1 := ih _ hg (addGrad g i gr) (addGrad g' i gr)
          (gr * S.exp (dataAt g ((nodeAt g i).prev.getD 0 0))) hA j
        linarith [h1, hd0]
      · rw [dif_neg hg, dif_neg hg]; exact hd0

theorem gradAt_assignGrad (g : Graph) (i j : Nat) (gr : ℝ) :
    gradAt (assignGrad g i gr) j =
      if j = i ∧ i < g.length then gr else gradAt g j := by
  by_cases hj : j = i
  · subst hj
    by_cases hi : j < g.length
    · simp [gradAt, nodeAt_assignGrad_self g j gr hi, hi]
    · simp [gradAt, assignGrad, setNode_of_length_le g j _ (Nat.le_of_not_lt hi),
        hi]
  · simp [gradAt, nodeAt_assignGrad_ne g i j gr hj, hj]

theorem gradAt_of_length_le (g : Graph) (i : Nat) (h : g.length ≤ i) :
    gradAt g i = 0 := by
  simp [gradAt, nodeAt_of_length_le g i h]
  rfl

theorem backward_structEq (S : ScalarOps) (g : Graph) (i : Nat) :
    StructEq (Value.backward S g i) g :=
  StructEq.trans _ _ _ (set_grad_structEq S i _ 1) (structEq_assignGrad g i 1)

/- ------------------------------------------------------------------ -/
/- Claim theorems.                                                    -/
/- ------------------------------------------------------------------ -/

/-- Claim C10: backward propagation mutates only gradient accumulators — for
every graph and every node, `backward` leaves the node's forward value,
operator tag and operand sequence (and the number of nodes) exactly as they
were before the call. -/
theorem backward_mutates_only_gradients (g : Graph) (i j : Nat) :
    (Value.backward RS g i).length = g.length ∧
    (nodeAt (Value.backward RS g i) j).data = (nodeAt g j).data ∧
    (nodeAt (Value.backward RS g i) j).operator = (nodeAt g j).operator ∧
    (nodeAt (Value.backward RS g i) j).prev = (nodeAt g j).prev :=
  ⟨(backward_structEq RS g i).1, (backward_structEq RS g i).2 j⟩

/-- Claim C2 (code bug): on a fresh single-leaf graph the root's gradient
after `backward(root)` is `2.0`, not the claimed `1.0`: `backward` first
assigns `grad = 1.0` and then calls `set_grad(1.0)`, which adds `1.0` again
before propagating. -/
theorem backward_root_gradient_is_two :
    gradAt (Value.backward RS (Value.new [] 5).1 (Value.new [] 5).2)
      (Value.new [] 5).2 = 2 := by
  simp [Value.backward, Value.new, Value.set_grad, assignGrad, addGrad, setNode,
    nodeAt, gradAt, dataAt, List.getD]
  norm_num

/-- Claim C1 (code bug): the root's gradient accumulator is overwritten, not
added to, by each `backward` call: on a fresh leaf root the gradient is `2.0`
after one, two, and three calls, whereas adding `∂root/∂root = 1` per call
without overwriting would give `1.0`, `2.0`, `3.0`. -/
theorem backward_overwrites_root_accumulator :
    gradAt (Value.backward RS (Value.new [] 5).1 0) 0 = 2 ∧
    gradAt (Value.backward RS (Value.backward RS (Value.new [] 5).1 0) 0) 0
      = 2 ∧
    gradAt (Value.backward RS (Value.backward RS
      (Value.backward RS (Value.new [] 5).1 0) 0) 0) 0 = 2 := by
  refine ⟨?_, ?_, ?_⟩ <;>
    (simp [Value.backward, Value.new, Value.set_grad, assignGrad, addGrad,
      setNode, nodeAt, gradAt, dataAt, List.getD]
     norm_num)

/-- Claim C3: gradient contributions from every use of a reused node are
summed: for any leaf `a`, `c = a + a` gives `a.gradient == 2.0` after
`backward(c)`, and for `a.value == 3.0`, `c = a * a` gives
`a.gradient == 6.0`. -/
theorem backward_sums_reused_operand (v : ℝ) :
    gradAt (Value.backward RS (Value.add (Value.new [] v).1 0 0).1 1) 0 = 2 ∧
    gradAt (Value.backward RS (Value.mul (Value.new [] 3).1 0 0).1 1) 0 = 6 := by
  constructor <;>
    (simp [Value.backward, Value.new, Value.add, Value.mul, Value.set_grad,
      assignGrad, addGrad, setNode, nodeAt, gradAt, dataAt, List.getD]
     norm_num)

/-- Claim C6: idempotent reset.  Start from a graph whose reachable gradients
are zero, run `backward(root)`, then take any state `z` obtained by calling
`zero_gradient()` on every node reachable from `root` (reachable gradients
zero, unreachable gradients and all structure as after the first call):
running `backward(root)` again from `z` gives every reachable node exactly the
gradient it had after the first call. -/
theorem zeroed_backward_reproduces_gradients (g z : Graph) (root : Nat)
    (h0 : ∀ j, Reaches g root j → gradAt g j = 0)
    (hz0 : ∀ j, Reaches g root j → gradAt z j = 0)
    (hzkeep : ∀ j, ¬ Reaches g root j →
      gradAt z j = gradAt (Value.backward RS g root) j)
    (hzs : StructEq z (Value.backward RS g root)) :
    ∀ j, Reaches g root j →
      gradAt (Value.backward RS z root) j =
        gradAt (Value.backward RS g root) j := by
  intro j hj
  have hstz : StructEq z g :=
    StructEq.trans _ _ _ hzs (backward_structEq RS g root)
  have hA : StructEq (assignGrad z root 1) (assignGrad g root 1) :=
    StructEq.trans _ _ _ (structEq_assignGrad z root 1)
      (StructEq.trans _ _ _ hstz
        (StructEq.symm _ _ (structEq_assignGrad g root 1)))
  have hd := set_grad_delta RS root (assignGrad z root 1) (assignGrad g root 1)
    1 hA j
  have key : gradAt (assignGrad z root 1) j = gradAt (assignGrad g root 1) j := by
    rw [gradAt_assignGrad, gradAt_assignGrad, hstz.1]
    by_cases hc : j = root ∧ root < g.length
    · simp [hc]
    · simp only [if_neg hc]
      exact (hz0 j hj).trans (h0 j hj).symm
  simp only [Value.backward] at hd ⊢
  linarith [hd, key]

/-- Witness for C6 at the graph `a = leaf 1; c = a + a`: zeroing both
reachable nodes after the first `backward(c)` and running `backward(c)` again
reproduces the gradient of `a`. -/
theorem zeroed_backward_reproduces_gradients_witness :
    gradAt (Value.backward RS
      (Value.zero_grad (Value.zero_grad
        (Value.backward RS (Value.add (Value.new [] 1).1 0 0).1 1) 0) 1) 1) 0 =
      gradAt (Value.backward RS (Value.add (Value.new [] 1).1 0 0).1 1) 0 := by
  have hBg : Value.backward RS (Value.add (Value.new [] 1).1 0 0).1 1 =
      [⟨1, Operator.none, [], 2⟩, ⟨2, Operator.add, [0, 0], 2⟩] := by
    simp [Value.backward, Value.new, Value.add, Value.set_grad, assignGrad,
      addGrad, setNode, nodeAt, dataAt, List.getD]
    norm_num
  have hg : (Value.add (Value.new [] 1).1 0 0).1 =
      [⟨1, Operator.none, [], 0⟩, ⟨2, Operator.add, [0, 0], 0⟩] := by
    simp [Value.new, Value.add, nodeAt, dataAt, List.getD]
    norm_num
  have hz : Value.zero_grad (Value.zero_grad
      (Value.backward RS (Value.add (Value.new [] 1).1 0 0).1 1) 0) 1 =
      [⟨1, Operator.none, [], 0⟩, ⟨2, Operator.add, [0, 0], 0⟩] := by
    rw [hBg]
    simp [Value.zero_grad, assignGrad, setNode, nodeAt, List.getD]
  have hreach : Reaches (Value.add (Value.new [] 1).1 0 0).1 1 0 := by
    refine Reaches.step 1 0 0 ?_ (Reaches.refl 0)
    rw [hg]
    simp [nodeAt, List.getD]
  refine zeroed_backward_reproduces_gradients _ _ 1 ?_ ?_ ?_ ?_ 0 hreach
  · intro j _
    rw [hg]
    match j with
    | 0 => simp [gradAt, nodeAt, List.getD]
    | 1 => simp [gradAt, nodeAt, List.getD]
    | n + 2 => exact gradAt_of_length_le _ _ (by simp)
  · intro j _
    rw [hz]
    match j with
    | 0 => simp [gradAt, nodeAt, List.getD]
    | 1 => simp [gradAt, nodeAt, List.getD]
    | n + 2 => exact gradAt_of_length_le _ _ (by simp)
  · intro j hj
    match j with
    | 0 => exact absurd hreach hj
    | 1 => exact absurd (Reaches.refl 1) hj
    | n + 2 =>
      rw [hz, hBg]
      rw [gradAt_of_length_le _ _ (by simp), gradAt_of_length_le _ _ (by simp)]
  · rw [hz, hBg]
    refine ⟨by simp, fun j => ?_⟩
    match j with
    | 0 => simp [nodeAt, List.getD]
    | 1 => simp [nodeAt, List.getD]
    | n + 2 =>
      rw [nodeAt_of_length_le _ _ (by simp), nodeAt_of_length_le _ _ (by simp)]
      exact ⟨rfl, rfl, rfl⟩

/-- Counterexample to C6 as universally stated: if gradients are not zero
before the first `backward` call of the scenario (here because an earlier
`backward` already ran), the second, freshly zeroed run does not reproduce the
first run's values: at the reused leaf the first run leaves `4.0`, the rerun
after zeroing leaves `2.0`. -/
theorem zeroed_backward_dirty_start_cex :
    gradAt (Value.backward RS (Value.zero_grad (Value.zero_grad
        (Value.backward RS (Value.backward RS
          (Value.add (Value.new [] 1).1 0 0).1 1) 1) 0) 1) 1) 0 ≠
      gradAt (Value.backward RS (Value.backward RS
        (Value.add (Value.new [] 1).1 0 0).1 1) 1) 0 := by
  have h1 : gradAt (Value.backward RS (Value.backward RS
      (Value.add (Value.new [] 1).1 0 0).1 1) 1) 0 = 4 := by
    simp [Value.backward, Value.new, Value.add, Value.set_grad, assignGrad,
      addGrad, setNode, nodeAt, gradAt, dataAt, List.getD]
    norm_num
  have h2 : gradAt (Value.backward RS (Value.zero_grad (Value.zero_grad
      (Value.backward RS (Value.backward RS
        (Value.add (Value.new [] 1).1 0 0).1 1) 1) 0) 1) 1) 0 = 2 := by
    simp [Value.backward, Value.zero_grad, Value.new, Value.add, Value.set_grad,
      assignGrad, addGrad, setNode, nodeAt, gradAt, dataAt, List.getD]
    norm_num
  rw [h1, h2]
  norm_num

theorem dataAt_append_lt (g l : Graph) (i : Nat) (h : i < g.length) :
    dataAt (g ++ l) i = dataAt g i := by
  simp [dataAt, nodeAt_append_lt g l i h]

theorem gradAt_append_lt (g l : Graph) (i : Nat) (h : i < g.length) :
    gradAt (g ++ l) i = gradAt g i := by
  simp [gradAt, nodeAt_append_lt g l i h]

theorem dataAt_assignGrad (g : Graph) (i j : Nat) (gr : ℝ) :
    dataAt (assignGrad g i gr) j = dataAt g j :=
  ((structEq_assignGrad g i gr).2 j).1

/-- Claim C5: for a node `y` with gradient `0`, `o = tanh(y)` has value
`tanh(y.value)`, and after `backward(o)` the gradient of `y` is
`1 - tanh(y.value)^2` (exact in the real-number model). -/
theorem tanh_value_and_backward_grad (g : Graph) (y : Nat)
    (hy : y < g.length) (h0 : gradAt g y = 0) :
    dataAt (Value.tanh RS g y).1 (Value.tanh RS g y).2 =
      Real.tanh (dataAt g y) ∧
    gradAt (Value.backward RS (Value.tanh RS g y).1 (Value.tanh RS g y).2) y =
      1 - Real.tanh (dataAt g y) ^ 2 := by
  have hlen2 : (Value.tanh RS g y).1.length = g.length + 1 := by
    simp [Value.tanh]
  have hylt : y < (Value.tanh RS g y).1.length := by
    rw [hlen2]; exact Nat.lt_succ_of_lt hy
  have hne : y ≠ g.length := Nat.ne_of_lt hy
  constructor
  · show dataAt (Value.tanh RS g y).1 g.length = Real.tanh (dataAt g y)
    simp only [Value.tanh, dataAt, nodeAt_append_self]
    simp [RS]
  · show gradAt (Value.backward RS (Value.tanh RS g y).1 g.length) y = _
    rw [Value.backward]
    have holen : g.length < (Value.tanh RS g y).1.length := by
      rw [hlen2]; exact Nat.lt_succ_self _
    have hnode : nodeAt (assignGrad (Value.tanh RS g y).1 g.length 1) g.length =
        ⟨RS.tanh (dataAt g y), Operator.tanh, [y], 1⟩ := by
      rw [nodeAt_assignGrad_self _ _ _ holen]
      simp only [Value.tanh]
      rw [show g ++ [(⟨RS.tanh (dataAt g y), Operator.tanh, [y], 0⟩ : ValueInt)] =
        g ++ ⟨RS.tanh (dataAt g y), Operator.tanh, [y], 0⟩ :: [] from rfl,
        nodeAt_append_self]
    rw [Value.set_grad]
    simp only [hnode]
    rw [List.getD]
    simp only [List.get?, Option.getD_some]
    rw [dif_pos hy]
    have harg : dataAt (addGrad (assignGrad (Value.tanh RS g y).1 g.length 1)
        g.length 1) y = dataAt g y := by
      rw [dataAt_addGrad, dataAt_assignGrad]
      simp only [Value.tanh]
      exact dataAt_append_lt g _ y hy
    rw [harg]
    have hself := gradAt_set_grad_self RS
      (addGrad (assignGrad (Value.tanh RS g y).1 g.length 1) g.length 1) y
      (1 * (1 - RS.tanh (dataAt g y) ^ 2))
      (by rw [length_addGrad, length_assignGrad]; exact hylt)
    rw [hself, gradAt_addGrad_ne _ _ _ _ hne, gradAt_assignGrad]
    simp only [hne, false_and, if_false]
    have hgy : gradAt (Value.tanh RS g y).1 y = 0 := by
      simp only [Value.tanh]
      rw [gradAt_append_lt g _ y hy]
      exact h0
    rw [hgy]
    simp [RS]

/-- Witness for C5 at `y = leaf 0`. -/
theorem tanh_value_and_backward_grad_witness :
    dataAt (Value.tanh RS [⟨0, Operator.none, [], 0⟩] 0).1
        (Value.tanh RS [⟨0, Operator.none, [], 0⟩] 0).2 =
      Real.tanh (dataAt [⟨0, Operator.none, [], 0⟩] 0) ∧
    gradAt (Value.backward RS (Value.tanh RS [⟨0, Operator.none, [], 0⟩] 0).1
        (Value.tanh RS [⟨0, Operator.none, [], 0⟩] 0).2) 0 =
      1 - Real.tanh (dataAt [⟨0, Operator.none, [], 0⟩] 0) ^ 2 :=
  tanh_value_and_backward_grad [⟨0, Operator.none, [], 0⟩] 0 (by simp)
    (by simp [gradAt, nodeAt, List.getD])

/-- Claim C4: `a.pow(k)` has value `a.value ^ k`; its second operand is a
fresh constant leaf holding `k`; pushing an incoming gradient `gr` through the
`Pow` node adds `gr · k · a.value^(k-1)` to `a`'s gradient; `backward` never
propagates into the exponent leaf (its gradient stays `0`); and on the
concrete graph `g = a.pow(2) - b.pow(3)` with `a = 2`, `b = 3`, after
`backward(g)` the gradients are `a ↦ 4.0`, `b ↦ -27.0`, and both exponent
leaves stay `0`. -/
theorem pow_value_and_backward_grads (g : Graph) (a : Nat) (k : ℝ)
    (ha : a < g.length) :
    dataAt (Value.pow RS g a k).1 (Value.pow RS g a k).2 =
      Real.rpow (dataAt g a) k ∧
    (nodeAt (Value.pow RS g a k).1 (Value.pow RS g a k).2).prev =
      [a, g.length] ∧
    nodeAt (Value.pow RS g a k).1 g.length = ⟨k, Operator.none, [], 0⟩ ∧
    (∀ gr : ℝ, gradAt
        (Value.set_grad RS (Value.pow RS g a k).1 (Value.pow RS g a k).2 gr) a
      = gradAt g a + gr * k * Real.rpow (dataAt g a) (k - 1)) ∧
    gradAt (Value.backward RS (Value.pow RS g a k).1 (Value.pow RS g a k).2)
      g.length = 0 ∧
    (∀ i, i ∈ ([(0, (4:ℝ)), (1, -27), (2, 0), (4, 0)] : List (Nat × ℝ)) →
      gradAt (Value.backward RS
        (Value.sub (Value.pow RS
          (Value.pow RS (Value.new (Value.new [] 2).1 3).1 0 2).1 1 3).1
          3 5).1 8) i.1 = i.2) := by
  have e1len : (Value.new g k).1.length = g.length + 1 := by simp [Value.new]
  have hplen : (Value.pow RS g a k).1.length = g.length + 2 := by
    simp [Value.pow, Value.new]
  have hp2 : (Value.pow RS g a k).2 = g.length + 1 := by
    simp [Value.pow, Value.new]
  have hnodeP : nodeAt (Value.pow RS g a k).1 (g.length + 1) =
      ⟨RS.rpow (dataAt g a) k, Operator.pow, [a, g.length], 0⟩ := by
    show nodeAt ((Value.new g k).1 ++ [_]) (g.length + 1) = _
    rw [show g.length + 1 = (Value.new g k).1.length from e1len.symm,
      nodeAt_append_self]
    simp [Value.new]
  have hnodeK : nodeAt (Value.pow RS g a k).1 g.length =
      ⟨k, Operator.none, [], 0⟩ := by
    show nodeAt ((Value.new g k).1 ++ [_]) g.length = _
    rw [nodeAt_append_lt _ _ _ (by rw [e1len]; exact Nat.lt_succ_self _)]
    show nodeAt (g ++ [_]) g.length = _
    rw [nodeAt_append_self]
  have halt : a < g.length + 1 := Nat.lt_succ_of_lt ha
  have hane : a ≠ g.length + 1 := Nat.ne_of_lt halt
  have hkne : g.length ≠ g.length + 1 := Nat.ne_of_lt (Nat.lt_succ_self _)
  have hdataA : dataAt (Value.pow RS g a k).1 a = dataAt g a := by
    show dataAt ((Value.new g k).1 ++ [_]) a = _
    rw [dataAt_append_lt _ _ _ (by rw [e1len]; exact halt)]
    show dataAt (g ++ [_]) a = _
    exact dataAt_append_lt _ _ _ ha
  have hdataK : dataAt (Value.pow RS g a k).1 g.length = k := by
    simp [dataAt, hnodeK]
  have hgradA : gradAt (Value.pow RS g a k).1 a = gradAt g a := by
    show gradAt ((Value.new g k).1 ++ [_]) a = _
    rw [gradAt_append_lt _ _ _ (by rw [e1len]; exact halt)]
    show gradAt (g ++ [_]) a = _
    exact gradAt_append_lt _ _ _ ha
  have hgradK : gradAt (Value.pow RS g a k).1 g.length = 0 := by
    simp [gradAt, hnodeK]
  refine ⟨?_, ?_, hnodeK, ?_, ?_, ?_⟩
  · rw [hp2, dataAt, hnodeP]
    rfl
  · rw [hp2]
    simp [hnodeP]
  · intro gr
    rw [hp2, Value.set_grad]
    simp only [hnodeP]
    rw [List.getD, List.getD]
    simp only [List.get?, Option.getD_some]
    rw [dif_pos halt]
    rw [dataAt_addGrad, dataAt_addGrad, hdataA, hdataK]
    have hself := gradAt_set_grad_self RS
      (addGrad (Value.pow RS g a k).1 (g.length + 1) gr) a
      (gr * k * RS.rpow (dataAt g a) (k - 1))
      (by rw [length_addGrad, hplen]; exact Nat.lt_succ_of_lt halt)
    rw [hself, gradAt_addGrad_ne _ _ _ _ hane, hgradA]
    simp [RS]
  · rw [hp2, Value.backward, Value.set_grad]
    have hnodeP1 : nodeAt (assignGrad (Value.pow RS g a k).1 (g.length + 1) 1)
        (g.length + 1) =
        ⟨RS.rpow (dataAt g a) k, Operator.pow, [a, g.length], 1⟩ := by
      rw [nodeAt_assignGrad_self _ _ _ (by rw [hplen]; exact Nat.lt_succ_self _),
        hnodeP]
    simp only [hnodeP1]
    rw [List.getD, List.getD]
    simp only [List.get?, Option.getD_some]
    rw [dif_pos halt]
    rw [gradAt_set_grad_of_gt RS a _ _ g.length ha,
      gradAt_addGrad_ne _ _ _ _ hkne, gradAt_assignGrad]
    simp only [hkne, false_and, if_false]
    exact hgradK
  · have h21 : RS.rpow 2 1 = 2 := by
      show Real.rpow 2 1 = 2
      rw [Real.rpow_eq_pow, Real.rpow_one]
    have h22 : RS.rpow 2 2 = 4 := by
      show Real.rpow 2 2 = 4
      rw [Real.rpow_eq_pow, Real.rpow_two]
      norm_num
    have h32 : RS.rpow 3 2 = 9 := by
      show Real.rpow 3 2 = 9
      rw [Real.rpow_eq_pow, Real.rpow_two]
      norm_num
    have h33 : RS.rpow 3 3 = 27 := by
      show Real.rpow 3 3 = 27
      rw [Real.rpow_eq_pow, show (3:ℝ) = ((3:ℕ):ℝ) by norm_num,
        Real.rpow_natCast]
      norm_num
    have hG : (Value.sub (Value.pow RS
        (Value.pow RS (Value.new (Value.new [] 2).1 3).1 0 2).1 1 3).1
          3 5).1 =
        [⟨2, Operator.none, [], 0⟩, ⟨3, Operator.none, [], 0⟩,
          ⟨2, Operator.none, [], 0⟩, ⟨4, Operator.pow, [0, 2], 0⟩,
          ⟨3, Operator.none, [], 0⟩, ⟨27, Operator.pow, [1, 4], 0⟩,
          ⟨-1, Operator.none, [], 0⟩, ⟨-27, Operator.mul, [5, 6], 0⟩,
          ⟨-23, Operator.add, [3, 7], 0⟩] := by
      simp only [Value.new, Value.add, Value.mul, Value.neg, Value.sub,
        Value.pow, nodeAt, dataAt, List.getD]
      norm_num [h22, h33]
    rw [hG]
    have hB : Value.backward RS
        [⟨2, Operator.none, [], 0⟩, ⟨3, Operator.none, [], 0⟩,
          ⟨2, Operator.none, [], 0⟩, ⟨4, Operator.pow, [0, 2], 0⟩,
          ⟨3, Operator.none, [], 0⟩, ⟨27, Operator.pow, [1, 4], 0⟩,
          ⟨-1, Operator.none, [], 0⟩, ⟨-27, Operator.mul, [5, 6], 0⟩,
          ⟨-23, Operator.add, [3, 7], 0⟩] 8 =
        [⟨2, Operator.none, [], 4⟩, ⟨3, Operator.none, [], -27⟩,
          ⟨2, Operator.none, [], 0⟩, ⟨4, Operator.pow, [0, 2], 1⟩,
          ⟨3, Operator.none, [], 0⟩, ⟨27, Operator.pow, [1, 4], -1⟩,
          ⟨-1, Operator.none, [], 27⟩, ⟨-27, Operator.mul, [5, 6], 1⟩,
          ⟨-23, Operator.add, [3, 7], 2⟩] := by
      rw [Value.backward]
      repeat (rw [Value.set_grad]
              simp [assignGrad, addGrad, setNode, nodeAt, gradAt, dataAt,
                List.getD])
      norm_num [h21, h32]
    rw [hB]
    intro i hi
    simp only [List.mem_cons, List.not_mem_nil, or_false] at hi
    rcases hi with h | h | h | h <;> subst h <;>
      simp [gradAt, nodeAt, List.getD]

/-- Witness for C4 at `a = leaf 2`, `k = 2`. -/
theorem pow_value_and_backward_grads_witness :
    0 < ([⟨2, Operator.none, [], 0⟩] : Graph).length ∧
    (dataAt (Value.pow RS [⟨2, Operator.none, [], 0⟩] 0 2).1
        (Value.pow RS [⟨2, Operator.none, [], 0⟩] 0 2).2 =
      Real.rpow (dataAt [⟨2, Operator.none, [], 0⟩] 0) 2 ∧
    (nodeAt (Value.pow RS [⟨2, Operator.none, [], 0⟩] 0 2).1
        (Value.pow RS [⟨2, Operator.none, [], 0⟩] 0 2).2).prev = [0, 1] ∧
    nodeAt (Value.pow RS [⟨2, Operator.none, [], 0⟩] 0 2).1 1 =
      ⟨2, Operator.none, [], 0⟩ ∧
    (∀ gr : ℝ, gradAt (Value.set_grad RS
        (Value.pow RS [⟨2, Operator.none, [], 0⟩] 0 2).1
        (Value.pow RS [⟨2, Operator.none, [], 0⟩] 0 2).2 gr) 0 =
      gradAt [⟨2, Operator.none, [], 0⟩] 0 +
        gr * 2 * Real.rpow (dataAt [⟨2, Operator.none, [], 0⟩] 0) (2 - 1)) ∧
    gradAt (Value.backward RS (Value.pow RS [⟨2, Operator.none, [], 0⟩] 0 2).1
        (Value.pow RS [⟨2, Operator.none, [], 0⟩] 0 2).2) 1 = 0 ∧
    (∀ i, i ∈ ([(0, (4:ℝ)), (1, -27), (2, 0), (4, 0)] : List (Nat × ℝ)) →
      gradAt (Value.backward RS
        (Value.sub (Value.pow RS
          (Value.pow RS (Value.new (Value.new [] 2).1 3).1 0 2).1 1 3).1
          3 5).1 8) i.1 = i.2)) :=
  ⟨by simp, pow_value_and_backward_grads [⟨2, Operator.none, [], 0⟩] 0 2
    (by simp)⟩

theorem dataAt_snoc_self (g : Graph) (v : ValueInt) :
    dataAt (g ++ [v]) g.length = v.data := by
  rw [dataAt, nodeAt_append_self]

theorem gradAt_snoc_self (g : Graph) (v : ValueInt) :
    gradAt (g ++ [v]) g.length = v.grad := by
  rw [gradAt, nodeAt_append_self]

theorem length_new (g : Graph) (x : ℝ) :
    (Value.new g x).1.length = g.length + 1 := by
  simp [Value.new]

theorem length_add (g : Graph) (i j : Nat) :
    (Value.add g i j).1.length = g.length + 1 := by
  simp [Value.add]

theorem length_neg (g : Graph) (i : Nat) :
    (Value.neg g i).1.length = g.length + 2 := by
  simp [Value.neg, Value.new]

theorem length_exp (g : Graph) (i : Nat) :
    (Value.exp RS g i).1.length = g.length + 1 := by
  simp [Value.exp]

theorem new_data (g : Graph) (x : ℝ) : dataAt (Value.new g x).1 g.length = x := by
  simp only [Value.new]
  rw [dataAt_snoc_self]

theorem add_data (g : Graph) (i j : Nat) :
    dataAt (Value.add g i j).1 (Value.add g i j).2 =
      dataAt g i + dataAt g j := by
  simp only [Value.add]
  rw [dataAt_snoc_self]

theorem exp_data (g : Graph) (i : Nat) :
    dataAt (Value.exp RS g i).1 (Value.exp RS g i).2 =
      RS.exp (dataAt g i) := by
  simp only [Value.exp]
  rw [dataAt_snoc_self]

theorem neg_data (g : Graph) (i : Nat) :
    dataAt (Value.neg g i).1 (Value.neg g i).2 = -dataAt g i := by
  simp only [Value.neg, Value.new]
  rw [dataAt_snoc_self]

theorem frame_new_data (g : Graph) (x : ℝ) (p : Nat) (hp : p < g.length) :
    dataAt (Value.new g x).1 p = dataAt g p := by
  simp only [Value.new]
  exact dataAt_append_lt g _ p hp

theorem frame_add_data (g : Graph) (i j p : Nat) (hp : p < g.length) :
    dataAt (Value.add g i j).1 p = dataAt g p := by
  simp only [Value.add]
  exact dataAt_append_lt g _ p hp

theorem frame_exp_data (g : Graph) (i p : Nat) (hp : p < g.length) :
    dataAt (Value.exp RS g i).1 p = dataAt g p := by
  simp only [Value.exp]
  exact dataAt_append_lt g _ p hp

theorem frame_neg_data (g : Graph) (i p : Nat) (hp : p < g.length) :
    dataAt (Value.neg g i).1 p = dataAt g p := by
  simp only [Value.neg, Value.new, List.append_assoc]
  exact dataAt_append_lt g _ p hp

theorem RS_rpow_neg_one (x : ℝ) : RS.rpow x (-1) = x⁻¹ := by
  show Real.rpow x (-1) = x⁻¹
  rw [Real.rpow_eq_pow, show (-1 : ℝ) = ((-1 : ℤ) : ℝ) by norm_num,
    Real.rpow_intCast, zpow_neg_one]

theorem div_data (g : Graph) (i j : Nat) (hi : i < g.length) :
    dataAt (Value.div RS g i j).1 (Value.div RS g i j).2 =
      dataAt g i * (dataAt g j)⁻¹ := by
  simp only [Value.div, Value.pow, Value.mul, Value.new]
  rw [dataAt_snoc_self]
  rw [dataAt_append_lt _ _ i (by simp [Nat.lt_succ_of_lt, hi]),
    dataAt_append_lt _ _ i hi, dataAt_snoc_self, RS_rpow_neg_one]

theorem sigmoid_data (g : Graph) (i : Nat) (hi : i < g.length) :
    dataAt (Value.sigmoid RS g i).1 (Value.sigmoid RS g i).2 =
      (1 + Real.exp (-dataAt g i))⁻¹ := by
  simp only [Value.sigmoid]
  set A := Value.new g 1 with hA
  set B := Value.new A.1 1 with hB
  set N := Value.neg B.1 i with hN
  set E := Value.exp RS N.1 N.2 with hE
  set S2 := Value.add E.1 B.2 E.2 with hS
  have hlenA : A.1.length = g.length + 1 := by rw [hA]; exact length_new g 1
  have hlenB : B.1.length = g.length + 2 := by rw [hB, length_new, hlenA]
  have hlenN : N.1.length = g.length + 4 := by rw [hN, length_neg, hlenB]
  have hlenE : E.1.length = g.length + 5 := by rw [hE, length_exp, hlenN]
  have hA2 : A.2 = g.length := by
    rw [hA]
    rfl
  have hB2 : B.2 = g.length + 1 := by
    rw [hB]
    show A.1.length = _
    rw [hlenA]
  have hvi : dataAt B.1 i = dataAt g i := by
    rw [hB, frame_new_data A.1 1 i (by rw [hlenA]; omega), hA,
      frame_new_data g 1 i hi]
  have hv1 : dataAt S2.1 A.2 = 1 := by
    rw [hA2, hS, frame_add_data E.1 B.2 E.2 g.length (by rw [hlenE]; omega),
      hE, frame_exp_data N.1 N.2 g.length (by rw [hlenN]; omega),
      hN, frame_neg_data B.1 i g.length (by rw [hlenB]; omega),
      hB, frame_new_data A.1 1 g.length (by rw [hlenA]; omega),
      hA, new_data g 1]
  have hv2 : dataAt S2.1 S2.2 = 1 + RS.exp (-dataAt g i) := by
    rw [hS, add_data, hB2, hE]
    rw [frame_exp_data N.1 N.2 (g.length + 1) (by rw [hlenN]; omega)]
    rw [exp_data N.1 N.2]
    rw [hN]
    rw [frame_neg_data B.1 i (g.length + 1) (by rw [hlenB]; omega)]
    rw [neg_data B.1 i]
    rw [hvi]
    rw [hB, show g.length + 1 = A.1.length from hlenA.symm, new_data A.1 1]
  rw [div_data S2.1 A.2 S2.2 (by rw [hS, length_add, hlenE, hA2]; omega)]
  rw [hv1, hv2]
  simp [RS]

/-- Claim C7: every arithmetic entry point (`Add`, `Sub`, `Mul`, `Div`, `Neg`,
`Pow`, `Tanh`, `Exp`, `Sigmoid`) allocates a new node whose value is computed
eagerly from the operands' current values by the operator's forward formula
and whose gradient starts at `0`, and leaves every existing node (value,
gradient, operator, operands) unchanged. -/
theorem ops_eager_value_zero_grad_frame (g : Graph) (i j : Nat) (k : ℝ)
    (hi : i < g.length) (hj : j < g.length) :
    (dataAt (Value.add g i j).1 (Value.add g i j).2 =
        dataAt g i + dataAt g j ∧
      gradAt (Value.add g i j).1 (Value.add g i j).2 = 0 ∧
      ∀ p, p < g.length → nodeAt (Value.add g i j).1 p = nodeAt g p) ∧
    (dataAt (Value.sub g i j).1 (Value.sub g i j).2 =
        dataAt g i - dataAt g j ∧
      gradAt (Value.sub g i j).1 (Value.sub g i j).2 = 0 ∧
      ∀ p, p < g.length → nodeAt (Value.sub g i j).1 p = nodeAt g p) ∧
    (dataAt (Value.mul g i j).1 (Value.mul g i j).2 =
        dataAt g i * dataAt g j ∧
      gradAt (Value.mul g i j).1 (Value.mul g i j).2 = 0 ∧
      ∀ p, p < g.length → nodeAt (Value.mul g i j).1 p = nodeAt g p) ∧
    (dataAt (Value.div RS g i j).1 (Value.div RS g i j).2 =
        dataAt g i * (dataAt g j)⁻¹ ∧
      gradAt (Value.div RS g i j).1 (Value.div RS g i j).2 = 0 ∧
      ∀ p, p < g.length → nodeAt (Value.div RS g i j).1 p = nodeAt g p) ∧
    (dataAt (Value.neg g i).1 (Value.neg g i).2 = -dataAt g i ∧
      gradAt (Value.neg g i).1 (Value.neg g i).2 = 0 ∧
      ∀ p, p < g.length → nodeAt (Value.neg g i).1 p = nodeAt g p) ∧
    (dataAt (Value.pow RS g i k).1 (Value.pow RS g i k).2 =
        Real.rpow (dataAt g i) k ∧
      gradAt (Value.pow RS g i k).1 (Value.pow RS g i k).2 = 0 ∧
      ∀ p, p < g.length → nodeAt (Value.pow RS g i k).1 p = nodeAt g p) ∧
    (dataAt (Value.tanh RS g i).1 (Value.tanh RS g i).2 =
        Real.tanh (dataAt g i) ∧
      gradAt (Value.tanh RS g i).1 (Value.tanh RS g i).2 = 0 ∧
      ∀ p, p < g.length → nodeAt (Value.tanh RS g i).1 p = nodeAt g p) ∧
    (dataAt (Value.exp RS g i).1 (Value.exp RS g i).2 =
        Real.exp (dataAt g i) ∧
      gradAt (Value.exp RS g i).1 (Value.exp RS g i).2 = 0 ∧
      ∀ p, p < g.length → nodeAt (Value.exp RS g i).1 p = nodeAt g p) ∧
    (dataAt (Value.sigmoid RS g i).1 (Value.sigmoid RS g i).2 =
        (1 + Real.exp (-dataAt g i))⁻¹ ∧
      gradAt (Value.sigmoid RS g i).1 (Value.sigmoid RS g i).2 = 0 ∧
      ∀ p, p < g.length → nodeAt (Value.sigmoid RS g i).1 p = nodeAt g p) := by
  have hrpow_neg_one : ∀ x : ℝ, RS.rpow x (-1) = x⁻¹ := by
    intro x
    show Real.rpow x (-1) = x⁻¹
    rw [Real.rpow_eq_pow, show (-1 : ℝ) = ((-1 : ℤ) : ℝ) by norm_num,
      Real.rpow_intCast, zpow_neg_one]
  refine ⟨⟨?_, ?_, ?_⟩, ⟨?_, ?_, ?_⟩, ⟨?_, ?_, ?_⟩, ⟨?_, ?_, ?_⟩,
    ⟨?_, ?_, ?_⟩, ⟨?_, ?_, ?_⟩, ⟨?_, ?_, ?_⟩, ⟨?_, ?_, ?_⟩, ⟨?_, ?_, ?_⟩⟩
  -- Add
  · simp only [Value.add]
    rw [dataAt_snoc_self]
  · simp only [Value.add]
    rw [gradAt_snoc_self]
  · intro p hp
    simp only [Value.add]
    exact nodeAt_append_lt g _ p hp
  -- Sub
  · simp only [Value.sub, Value.neg, Value.add, Value.new]
    rw [dataAt_snoc_self]
    rw [dataAt_append_lt _ _ i (by simp [Nat.lt_succ_of_lt, hi]),
      dataAt_append_lt _ _ i hi, dataAt_snoc_self]
    ring
  · simp only [Value.sub, Value.neg, Value.add, Value.new]
    rw [gradAt_snoc_self]
  · intro p hp
    simp only [Value.sub, Value.neg, Value.add, Value.new, List.append_assoc]
    exact nodeAt_append_lt g _ p hp
  -- Mul
  · simp only [Value.mul]
    rw [dataAt_snoc_self]
  · simp only [Value.mul]
    rw [gradAt_snoc_self]
  · intro p hp
    simp only [Value.mul]
    exact nodeAt_append_lt g _ p hp
  -- Div
  · simp only [Value.div, Value.pow, Value.mul, Value.new]
    rw [dataAt_snoc_self]
    rw [dataAt_append_lt _ _ i (by simp [Nat.lt_succ_of_lt, hi]),
      dataAt_append_lt _ _ i hi, dataAt_snoc_self, hrpow_neg_one]
  · simp only [Value.div, Value.pow, Value.mul, Value.new]
    rw [gradAt_snoc_self]
  · intro p hp
    simp only [Value.div, Value.pow, Value.mul, Value.new, List.append_assoc]
    exact nodeAt_append_lt g _ p hp
  -- Neg
  · simp only [Value.neg, Value.new]
    rw [dataAt_snoc_self]
  · simp only [Value.neg, Value.new]
    rw [gradAt_snoc_self]
  · intro p hp
    simp only [Value.neg, Value.new, List.append_assoc]
    exact nodeAt_append_lt g _ p hp
  -- Pow
  · simp only [Value.pow, Value.new]
    rw [dataAt_snoc_self]
    rfl
  · simp only [Value.pow, Value.new]
    rw [gradAt_snoc_self]
  · intro p hp
    simp only [Value.pow, Value.new, List.append_assoc]
    exact nodeAt_append_lt g _ p hp
  -- Tanh
  · simp only [Value.tanh]
    rw [dataAt_snoc_self]
    rfl
  · simp only [Value.tanh]
    rw [gradAt_snoc_self]
  · intro p hp
    simp only [Value.tanh]
    exact nodeAt_append_lt g _ p hp
  -- Exp
  · simp only [Value.exp]
    rw [dataAt_snoc_self]
    rfl
  · simp only [Value.exp]
    rw [gradAt_snoc_self]
  · intro p hp
    simp only [Value.exp]
    exact nodeAt_append_lt g _ p hp
  -- Sigmoid
  · exact sigmoid_data g i hi
  · simp only [Value.sigmoid, Value.div, Value.pow, Value.mul, Value.add,
      Value.exp, Value.neg, Value.new]
    rw [gradAt_snoc_self]
  · intro p hp
    simp only [Value.sigmoid, Value.div, Value.pow, Value.mul, Value.add,
      Value.exp, Value.neg, Value.new, List.append_assoc]
    exact nodeAt_append_lt g _ p hp

/-- Witness for C7 at the two-leaf graph `[2, 3]`, `i = 0`, `j = 1`, `k = 2`
(the `Add` component of the conjunction). -/
theorem ops_eager_value_zero_grad_frame_witness :
    dataAt (Value.add [⟨2, Operator.none, [], 0⟩, ⟨3, Operator.none, [], 0⟩]
        0 1).1
      (Value.add [⟨2, Operator.none, [], 0⟩, ⟨3, Operator.none, [], 0⟩]
        0 1).2 =
    dataAt [⟨2, Operator.none, [], 0⟩, ⟨3, Operator.none, [], 0⟩] 0 +
      dataAt [⟨2, Operator.none, [], 0⟩, ⟨3, Operator.none, [], 0⟩] 1 :=
  (ops_eager_value_zero_grad_frame
    [⟨2, Operator.none, [], 0⟩, ⟨3, Operator.none, [], 0⟩] 0 1 2
    (by simp) (by simp)).1.1

theorem length_mul (g : Graph) (i j : Nat) :
    (Value.mul g i j).1.length = g.length + 1 := by
  simp [Value.mul]

theorem mul_data (g : Graph) (i j : Nat) :
    dataAt (Value.mul g i j).1 (Value.mul g i j).2 =
      dataAt g i * dataAt g j := by
  simp only [Value.mul]
  rw [dataAt_snoc_self]

theorem frame_mul_data (g : Graph) (i j p : Nat) (hp : p < g.length) :
    dataAt (Value.mul g i j).1 p = dataAt g p := by
  simp only [Value.mul]
  exact dataAt_append_lt g _ p hp

/-- Invariant of the `for` loop of `Neuron::forward`: the produced node's
value is the running node's value plus the weighted sum of the remaining
pairs, evaluated at the pre-loop graph. -/
theorem forwardLoop_spec :
    ∀ (l : List (Nat × Nat)) (g : Graph) (sum : Nat),
      sum < g.length →
      (∀ p ∈ l, p.1 < g.length ∧ p.2 < g.length) →
      dataAt (forwardLoop g sum l).1 (forwardLoop g sum l).2 =
        dataAt g sum + (l.map (fun p => dataAt g p.1 * dataAt g p.2)).sum ∧
      (∀ q, q < g.length → dataAt (forwardLoop g sum l).1 q = dataAt g q) := by
  intro l
  induction l with
  | nil =>
    intro g sum hs _
    constructor
    · simp [forwardLoop]
    · intro q _
      simp [forwardLoop]
  | cons p rest ih =>
    intro g sum hs hmem
    have hp := hmem p (List.mem_cons_self p rest)
    simp only [forwardLoop]
    have hs1len : (Value.add (Value.mul g p.1 p.2).1 sum
        (Value.mul g p.1 p.2).2).1.length = g.length + 2 := by
      rw [length_add, length_mul]
    have hs2 : (Value.add (Value.mul g p.1 p.2).1 sum
        (Value.mul g p.1 p.2).2).2 = g.length + 1 := by
      show (Value.mul g p.1 p.2).1.length = _
      rw [length_mul]
    have hframe : ∀ q, q < g.length →
        dataAt (Value.add (Value.mul g p.1 p.2).1 sum
          (Value.mul g p.1 p.2).2).1 q = dataAt g q := by
      intro q hq
      rw [frame_add_data _ _ _ q (by rw [length_mul]; omega),
        frame_mul_data _ _ _ q hq]
    have hsumdata : dataAt (Value.add (Value.mul g p.1 p.2).1 sum
        (Value.mul g p.1 p.2).2).1
        (Value.add (Value.mul g p.1 p.2).1 sum (Value.mul g p.1 p.2).2).2 =
        dataAt g sum + dataAt g p.1 * dataAt g p.2 := by
      rw [add_data, frame_mul_data _ _ _ sum hs, mul_data]
    obtain ⟨ihval, ihframe⟩ := ih
      (Value.add (Value.mul g p.1 p.2).1 sum (Value.mul g p.1 p.2).2).1
      (Value.add (Value.mul g p.1 p.2).1 sum (Value.mul g p.1 p.2).2).2
      (by rw [hs2, hs1len]; omega)
      (by
        intro q hq
        have := hmem q (List.mem_cons_of_mem p hq)
        constructor <;> [skip; skip] <;>
          first
            | exact Nat.lt_of_lt_of_le this.1 (by rw [hs1len]; omega)
            | exact Nat.lt_of_lt_of_le this.2 (by rw [hs1len]; omega))
    constructor
    · rw [ihval, hsumdata]
      have hmap : rest.map (fun q =>
          dataAt (Value.add (Value.mul g p.1 p.2).1 sum
            (Value.mul g p.1 p.2).2).1 q.1 *
          dataAt (Value.add (Value.mul g p.1 p.2).1 sum
            (Value.mul g p.1 p.2).2).1 q.2) =
          rest.map (fun q => dataAt g q.1 * dataAt g q.2) := by
        refine List.map_congr_left ?_
        intro q hq
        have hqb := hmem q (List.mem_cons_of_mem p hq)
        rw [hframe q.1 hqb.1, hframe q.2 hqb.2]
      rw [hmap]
      simp only [List.map_cons, List.sum_cons]
      ring
    · intro q hq
      rw [ihframe q (by rw [hs1len]; omega), hframe q hq]

/-- Claim C9: `Neuron::forward` hits its assertion (an immediate,
unrecoverable failure, embedded as `Option.none`) exactly when the input
vector's length differs from the number of weights; when the lengths match it
returns normally, and the returned node's value is the bias plus the weighted
sum of the inputs. -/
theorem neuron_forward_assert (g : Graph) (n : Neuron) (inputs : List Nat)
    (hb : n.bias < g.length)
    (hw : ∀ w ∈ n.weights, w < g.length)
    (hx : ∀ x ∈ inputs, x < g.length) :
    (Neuron.forward g n inputs = Option.none ↔
      inputs.length ≠ n.weights.length) ∧
    ∀ r, Neuron.forward g n inputs = some r →
      dataAt r.1 r.2 = dataAt g n.bias +
        ((n.weights.zip inputs).map
          (fun p => dataAt g p.1 * dataAt g p.2)).sum := by
  constructor
  · by_cases hc : inputs.length = n.weights.length <;>
      simp [Neuron.forward, hc]
  · intro r hr
    by_cases hc : inputs.length = n.weights.length
    · simp only [Neuron.forward, if_pos hc, Option.some.injEq] at hr
      subst hr
      exact (forwardLoop_spec (n.weights.zip inputs) g n.bias hb
        (by
          intro p hp
          have hmem := List.of_mem_zip hp
          exact ⟨hw p.1 hmem.1, hx p.2 hmem.2⟩)).1
    · simp [Neuron.forward, if_neg hc] at hr

/-- Witness for C9: a one-weight neuron applied to a matching one-input
vector. -/
theorem neuron_forward_assert_witness :
    (Neuron.forward [⟨2, Operator.none, [], 0⟩, ⟨3, Operator.none, [], 0⟩]
        ⟨[0], 1⟩ [0] = Option.none ↔ ([0] : List Nat).length ≠
        (⟨[0], 1⟩ : Neuron).weights.length) ∧
    ∀ r, Neuron.forward [⟨2, Operator.none, [], 0⟩, ⟨3, Operator.none, [], 0⟩]
        ⟨[0], 1⟩ [0] = some r →
      dataAt r.1 r.2 =
        dataAt [⟨2, Operator.none, [], 0⟩, ⟨3, Operator.none, [], 0⟩] 1 +
        (((⟨[0], 1⟩ : Neuron).weights.zip [0]).map
          (fun p =>
            dataAt [⟨2, Operator.none, [], 0⟩, ⟨3, Operator.none, [], 0⟩] p.1 *
            dataAt [⟨2, Operator.none, [], 0⟩, ⟨3, Operator.none, [], 0⟩]
              p.2)).sum :=
  neuron_forward_assert
    [⟨2, Operator.none, [], 0⟩, ⟨3, Operator.none, [], 0⟩] ⟨[0], 1⟩ [0]
    (by simp) (by simp) (by simp)

/-- Claim C8 (code bug): `get_ops` does not succeed on unary nodes — for a
`Tanh` node (single operand) the source unconditionally indexes `prev[1]`,
which is out of bounds (embedded as `Option.none`), so no string is produced
for any rendering of leaf values. -/
theorem get_ops_tanh_out_of_bounds (render : ℝ → String) :
    Value.get_ops render
      (Value.tanh RS (Value.new [] 1).1 (Value.new [] 1).2).1
      (Value.tanh RS (Value.new [] 1).1 (Value.new [] 1).2).2 =
      Option.none := by
  rw [Value.get_ops]
  simp [Value.tanh, Value.new, nodeAt, List.getD]
  split <;> rfl

end Micrograd
